import Mathlib

/-!
Verification of the myos-zephyr cooperative kernel and its fxp16
fixed-point library, by shallow embedding of the C sources
(`src/process.c`, `src/ptimer.c`, `src/pt.h`, `include/myos/ringbuffer.h`,
`include/myos/timestamp.h`, `src/timer.h`, `app/src/fxp16.c`).

Modelling conventions:
* machine integers are `Nat`/`Int` with explicit `% 2^w` where wrap matters;
* timestamps are `Nat` values taken modulo `2^32` with the signed-difference
  comparison of `timestamp_arch.h`;
* C pointers to records become small-integer identifiers (`Nat`); the C
  `NULL` process pointer becomes `Option.none`;
* the statistics build (`CONFIG_MYOS_STATISTICS`) is modelled, so the
  `errflags.eventqueue` latch and `maxqueuecount` appear in the state;
* process thread functions are modelled as resume-point machines
  `Nat → Event → Nat × Nat` (from local-continuation and incoming event to
  new local-continuation and returned protothread state).  In this model a
  thread body cannot call back into the scheduler, hence one pass of the
  poll-drain loop of `process_run` clears the global poll flag and the
  C `while` loop exits after its second test; the loop is embedded with
  that fuel;
* deliveries are recorded in a trace (the list of delivered events, in
  order), standing for the calls of the C task bodies.
-/

/-- Reserved event identifier START (process.h). -/
def PROCESS_EVENT_START : Nat := 0

/-- Reserved event identifier POLL (process.h). -/
def PROCESS_EVENT_POLL : Nat := 1

/-- Reserved event identifier CONTINUE (process.h). -/
def PROCESS_EVENT_CONTINUE : Nat := 2

/-- Reserved event identifier TIMEOUT (process.h). -/
def PROCESS_EVENT_TIMEOUT : Nat := 3

/-- Reserved event identifier EXIT (process.h). -/
def PROCESS_EVENT_EXIT : Nat := 4

/-- LC_DEFAULT, the terminal local continuation: `(lc_t)(~((lc_t)(0)))` for
`lc_t = uint16_t` (pt.h). -/
def LC_DEFAULT : Nat := 65535

/-- PT_STATE_WAITING (pt.h). -/
def PT_STATE_WAITING : Nat := 1

/-- PT_STATE_TERMINATED: `(ptstate_t)(~((ptstate_t)(0)))` for
`ptstate_t = uint8_t` (pt.h). -/
def PT_STATE_TERMINATED : Nat := 255

/-- PT_IS_RUNNING(pt): `((pt)->lc > 0) && ((pt)->lc != LC_DEFAULT)` (pt.h). -/
def PT_IS_RUNNING (lc : Nat) : Bool :=
  decide (lc > 0) && decide (lc ≠ LC_DEFAULT)

/-- TIMESTAMP_ARCH_DIFF(a,b): the signed 32-bit reinterpretation of the
modular difference `(a - b)` of two `uint32_t` timestamps
(timestamp_arch.h). -/
def TIMESTAMP_DIFF (a b : Nat) : Int :=
  let d : Nat := (a + 2 ^ 32 - b % 2 ^ 32) % 2 ^ 32
  if d < 2 ^ 31 then (d : Int) else (d : Int) - 2 ^ 32

/-- timestamp_less_than(a,b): `TIMESTAMP_DIFF(a,b) < 0` (timestamp.h). -/
def timestamp_less_than (a b : Nat) : Bool :=
  decide (TIMESTAMP_DIFF a b < 0)

/-- timestamp_lessequal_than(a,b): `TIMESTAMP_DIFF(a,b) <= 0` (timestamp.h). -/
def timestamp_lessequal_than (a b : Nat) : Bool :=
  decide (TIMESTAMP_DIFF a b ≤ 0)

/-- timestamp_passed(t) at current time `now`:
`timestamp_lessequal_than(t, timestamp_now())` (timestamp.h); the current
time is passed explicitly in this model. -/
def timestamp_passed (t now : Nat) : Bool :=
  timestamp_lessequal_than t now

/-- Process event record `process_event_t` (process.h): identifier, data
pointer (modelled as `Nat`, `NULL = 0`), source process
(`NULL` possible, hence `Option`), destination process. -/
structure Event where
  id : Nat
  data : Nat
  efrom : Option Nat
  eto : Nat
  deriving DecidableEq, Repr

/-- Bounded ring buffer of events, RINGBUFFER_TYPEDEF with capacity `N`
(ringbuffer.h): counted head/tail indices plus the item array, modelled as
a total function from indices. -/
structure EventQueue (N : Nat) where
  head : Nat
  tail : Nat
  count : Nat
  items : Nat → Event

/-- RINGBUFFER_FULL: `count >= size` (ringbuffer.h). -/
def RINGBUFFER_FULL {N : Nat} (q : EventQueue N) : Bool :=
  decide (q.count ≥ N)

/-- RINGBUFFER_EMPTY: `!count` (ringbuffer.h). -/
def RINGBUFFER_EMPTY {N : Nat} (q : EventQueue N) : Bool :=
  decide (q.count = 0)

/-- RINGBUFFER_PUSH: advance the tail, wrapping to 0 at the capacity, and
increment the count (ringbuffer.h). -/
def RINGBUFFER_PUSH {N : Nat} (q : EventQueue N) : EventQueue N :=
  { q with
    tail := if q.tail + 1 = N then 0 else q.tail + 1
    count := q.count + 1 }

/-- RINGBUFFER_POP: advance the head, wrapping to 0 at the capacity, and
decrement the count (ringbuffer.h). -/
def RINGBUFFER_POP {N : Nat} (q : EventQueue N) : EventQueue N :=
  { q with
    head := if q.head + 1 = N then 0 else q.head + 1
    count := q.count - 1 }

/-- RINGBUFFER_INIT: zero count, head and tail (ringbuffer.h). -/
def RINGBUFFER_INIT {N : Nat} (q : EventQueue N) : EventQueue N :=
  { q with count := 0, head := 0, tail := 0 }

/-- Process control block `process_t` (process.h): protothread local
continuation `pt.lc`, thread function (modelled as a resume-point machine),
user data and the poll-request flag. -/
structure Proc where
  lc : Nat
  thread : Nat → Event → Nat × Nat
  data : Nat
  pollreq : Bool

/-- Whole-scheduler state: the globals of process.c (`process_current`,
`process_running_list` with the list front at the head, the event queue,
`process_global_pollreq`, the statistics error latch and high-water mark)
together with the ptimer service globals of ptimer.c (`ptimer_pending`,
`ptimer_next_stop`), the current wall-clock time, the identity of the
ptimer process, and the process records themselves. -/
structure SchedState (N : Nat) where
  procs : Nat → Proc
  running_list : List Nat
  current : Option Nat
  queue : EventQueue N
  global_pollreq : Bool
  errflags_eventqueue : Bool
  maxqueuecount : Nat
  ptimer_pending : Bool
  ptimer_next_stop : Nat
  now : Nat
  ptimer_pid : Nat

/-- Helper updating the record of one process. -/
def setProc {N : Nat} (s : SchedState N) (p : Nat) (f : Proc → Proc) :
    SchedState N :=
  { s with procs := Function.update s.procs p (f (s.procs p)) }

/-- PROCESS_IS_RUNNING(p): `PT_IS_RUNNING(&p->pt)` (process.h). -/
def PROCESS_IS_RUNNING {N : Nat} (s : SchedState N) (p : Nat) : Bool :=
  PT_IS_RUNNING ((s.procs p).lc)

/-- process_init (process.c): empty running list, zeroed ring buffer,
no current process. -/
def process_init {N : Nat} (s : SchedState N) : SchedState N :=
  { s with
    running_list := []
    queue := RINGBUFFER_INIT s.queue
    current := none }

/-- process_post (process.c): fail (latching `errflags.eventqueue`) when
the queue is full, otherwise write the event record
`{from = process_current, to, id, data}` at the tail slot, push, and update
the queue-count high-water mark. -/
def process_post {N : Nat} (s : SchedState N) (dst evtid data : Nat) :
    Bool × SchedState N :=
  if RINGBUFFER_FULL s.queue then
    (false, { s with errflags_eventqueue := true })
  else
    let evt : Event := { id := evtid, data := data, efrom := s.current, eto := dst }
    let q1 := { s.queue with items := Function.update s.queue.items s.queue.tail evt }
    let q2 := RINGBUFFER_PUSH q1
    (true,
      { s with
        queue := q2
        maxqueuecount := if q2.count > s.maxqueuecount then q2.count else s.maxqueuecount })

/-- process_deliver_event (process.c): when the destination is running or
the event is START, switch the context to the destination, invoke the
thread, erase the destination from the running list when it returned
TERMINATED, restore the context and return true; otherwise return false.
The delivered event is recorded in the returned trace. -/
def process_deliver_event {N : Nat} (s : SchedState N) (evt : Event) :
    Bool × SchedState N × List Event :=
  if PROCESS_IS_RUNNING s evt.eto || evt.id = PROCESS_EVENT_START then
    let p := s.procs evt.eto
    let r := p.thread p.lc evt
    let s1 := setProc s evt.eto (fun pr => { pr with lc := r.1 })
    let s2 :=
      if r.2 = PT_STATE_TERMINATED then
        { s1 with running_list := s1.running_list.erase evt.eto }
      else s1
    (true, { s2 with current := s.current }, [evt])
  else
    (false, s, [])

/-- process_post_sync (process.c): build the event from the current
process and deliver it immediately. -/
def process_post_sync {N : Nat} (s : SchedState N) (dst evtid data : Nat) :
    Bool × SchedState N × List Event :=
  process_deliver_event s { id := evtid, data := data, efrom := s.current, eto := dst }

/-- process_start (process.c): fail on an already running process;
otherwise set the user data, initialize the protothread (`PT_INIT`), push
the process at the front of the running list and synchronously deliver
START. -/
def process_start {N : Nat} (s : SchedState N) (p data : Nat) :
    Bool × SchedState N × List Event :=
  if PROCESS_IS_RUNNING s p then
    (false, s, [])
  else
    let s1 := setProc s p (fun pr => { pr with data := data, lc := 0 })
    let s2 := { s1 with running_list := p :: s1.running_list }
    let r := process_post_sync s2 p PROCESS_EVENT_START data
    (true, r.2.1, r.2.2)

/-- process_exit (process.c): fail on a process that is not running,
otherwise synchronously deliver EXIT. -/
def process_exit {N : Nat} (s : SchedState N) (p : Nat) :
    Bool × SchedState N × List Event :=
  if !PROCESS_IS_RUNNING s p then
    (false, s, [])
  else
    let r := process_post_sync s p PROCESS_EVENT_EXIT 0
    (true, r.2.1, r.2.2)

/-- process_poll (process.c): set the process poll flag and the global
poll flag. -/
def process_poll {N : Nat} (s : SchedState N) (p : Nat) : SchedState N :=
  { setProc s p (fun pr => { pr with pollreq := true }) with global_pollreq := true }

/-- Body of the `plist_foreach` in process_run (process.c): walk the
captured running list; for each process with its poll flag set, clear the
flag and synchronously deliver POLL. -/
def pollForeach {N : Nat} : List Nat → SchedState N → SchedState N × List Event
  | [], s => (s, [])
  | p :: rest, s =>
    if (s.procs p).pollreq then
      let s1 := setProc s p (fun pr => { pr with pollreq := false })
      let r := process_post_sync s1 p PROCESS_EVENT_POLL 0
      let r2 := pollForeach rest r.2.1
      (r2.1, r.2.2 ++ r2.2)
    else
      pollForeach rest s

/-- The `while(process_global_pollreq)` loop of process_run (process.c),
embedded with explicit fuel: test the global flag, clear it, run one
foreach pass, repeat.  In this model thread bodies cannot re-set the flag,
so fuel 2 realizes the C loop exactly (one pass, then the exit test). -/
def pollLoop {N : Nat} : Nat → SchedState N → SchedState N × List Event
  | 0, s => (s, [])
  | fuel + 1, s =>
    if s.global_pollreq then
      let s0 := { s with global_pollreq := false }
      let r1 := pollForeach s0.running_list s0
      let r2 := pollLoop fuel r1.1
      (r2.1, r1.2 ++ r2.2)
    else
      (s, [])

/-- The constant `ptimer_poll_evt` (ptimer.c): a POLL event addressed to
the ptimer process, with no data and no source. -/
def ptimer_poll_evt (ptimer_pid : Nat) : Event :=
  { id := PROCESS_EVENT_POLL, data := 0, efrom := none, eto := ptimer_pid }

/-- ptimer_processing (ptimer.c): when ptimers are pending and the earliest
stop has passed, clear the pending flag and synchronously deliver the
ptimer POLL event. -/
def ptimer_processing {N : Nat} (s : SchedState N) : SchedState N × List Event :=
  if s.ptimer_pending && timestamp_passed s.ptimer_next_stop s.now then
    let s1 := { s with ptimer_pending := false }
    let r := process_deliver_event s1 (ptimer_poll_evt s.ptimer_pid)
    (r.2.1, r.2.2)
  else
    (s, [])

/-- process_run (process.c): drain poll requests, run the ptimer service
routine, deliver (and pop) at most one queued event, and return the number
of remaining events plus the global poll flag.  The result is the return
value, the new state, and the trace of deliveries. -/
def process_run {N : Nat} (s : SchedState N) : Nat × SchedState N × List Event :=
  let r1 := pollLoop 2 s
  let r2 := ptimer_processing r1.1
  let s2 := r2.1
  let r3 :=
    if s2.queue.count ≠ 0 then
      let d := process_deliver_event s2 (s2.queue.items s2.queue.head)
      ({ d.2.1 with queue := RINGBUFFER_POP d.2.1.queue }, d.2.2)
    else
      (s2, [])
  (r3.1.queue.count + (if r3.1.global_pollreq then 1 else 0), r3.1,
    r1.2 ++ r2.2 ++ r3.2)

/-- Wall-clock timer `timer_t` (timer.h): start timestamp and span. -/
structure CTimer where
  start : Nat
  span : Nat
  deriving DecidableEq, Repr

/-- timer_timestamp_stop (timer.h): `start + span` in `uint32_t`
timestamp arithmetic. -/
def timer_timestamp_stop (t : CTimer) : Nat :=
  (t.start + t.span) % 2 ^ 32

/-- timer_start (timer.c): capture the current time and the span. -/
def timer_start (now span : Nat) : CTimer :=
  { start := now % 2 ^ 32, span := span }

/-- timer_restart (timer.c): capture the current time, keep the span. -/
def timer_restart (t : CTimer) (now : Nat) : CTimer :=
  { t with start := now % 2 ^ 32 }

/-- timer_reset (timer.c): advance the start by the span (periodic). -/
def timer_reset (t : CTimer) : CTimer :=
  { t with start := (t.start + t.span) % 2 ^ 32 }

/-- timer_expired (timer.h): the stop timestamp has passed. -/
def timer_expired (t : CTimer) (now : Nat) : Bool :=
  timestamp_passed (timer_timestamp_stop t) now

/-- Ptimer record `ptimer_t` (ptimer.h): a wall-clock timer with a handler
(modelled as a flag recording whether the C handler pointer is non-NULL;
handler invocations are reported in the sweep trace) and the running flag. -/
structure Ptimer where
  timer : CTimer
  handler : Bool
  running : Bool
  deriving DecidableEq, Repr

/-- State of the ptimer subsystem (ptimer.c): the timer records, the
running list (front of the list at the head), `ptimer_pending`,
`ptimer_next_stop`, and the current time. -/
structure PtState where
  timers : Nat → Ptimer
  list : List Nat
  pending : Bool
  next_stop : Nat
  now : Nat

/-- Helper updating one ptimer record. -/
def setPtimer (s : PtState) (id : Nat) (f : Ptimer → Ptimer) : PtState :=
  { s with timers := Function.update s.timers id (f (s.timers id)) }

/-- ptimer_expired (ptimer.h): `timer_expired(&ptimer->timer)`. -/
def ptimer_expired (s : PtState) (id : Nat) : Bool :=
  timer_expired (s.timers id).timer s.now

/-- ptimer_next_stop_update (ptimer.c): fold this ptimer's stop time into
the pending earliest-stop hint. -/
def ptimer_next_stop_update (s : PtState) (id : Nat) : PtState :=
  let this_stop := timer_timestamp_stop (s.timers id).timer
  if s.pending then
    if timestamp_less_than this_stop s.next_stop then
      { s with next_stop := this_stop }
    else s
  else
    { s with next_stop := this_stop, pending := true }

/-- ptimer_add_to_list (ptimer.c): push the record at the front of the
running list unless it is already running, mark it running, and update the
earliest-stop hint. -/
def ptimer_add_to_list (s : PtState) (id : Nat) : PtState :=
  let s1 :=
    if (s.timers id).running = false then
      { s with list := id :: s.list }
    else s
  let s2 := setPtimer s1 id (fun t => { t with running := true })
  ptimer_next_stop_update s2 id

/-- ptimer_remove_from_list (ptimer.c): when running, clear the running
flag and erase the record from the running list. -/
def ptimer_remove_from_list (s : PtState) (id : Nat) : PtState :=
  if (s.timers id).running then
    { setPtimer s id (fun t => { t with running := false }) with
      list := s.list.erase id }
  else s

/-- ptimer_start (ptimer.c): record the handler, start the wall-clock
timer from the current time, and add the record to the running list. -/
def ptimer_start (s : PtState) (id : Nat) (span : Nat) (handler : Bool) : PtState :=
  let s1 := setPtimer s id (fun t =>
    { t with handler := handler, timer := timer_start s.now span })
  ptimer_add_to_list s1 id

/-- ptimer_restart (ptimer.c): restart the wall-clock timer from the
current time and add the record to the running list. -/
def ptimer_restart (s : PtState) (id : Nat) : PtState :=
  let s1 := setPtimer s id (fun t => { t with timer := timer_restart t.timer s.now })
  ptimer_add_to_list s1 id

/-- ptimer_reset (ptimer.c): advance the wall-clock timer by its span and
add the record to the running list. -/
def ptimer_reset (s : PtState) (id : Nat) : PtState :=
  let s1 := setPtimer s id (fun t => { t with timer := timer_reset t.timer })
  ptimer_add_to_list s1 id

/-- ptimer_stop (ptimer.h): `ptimer_remove_from_list`. -/
def ptimer_stop (s : PtState) (id : Nat) : PtState :=
  ptimer_remove_from_list s id

/-- Body of the sweep loop in the ptimer process thread (ptimer.c): walk
the captured node sequence; an expired record is erased, marked not
running, and its handler (when present) is invoked — recorded in the
returned trace; a live record folds its stop time into the earliest-stop
hint. -/
def ptimer_sweepAux : List Nat → PtState → PtState × List Nat
  | [], s => (s, [])
  | id :: rest, s =>
    if ptimer_expired s id then
      let s1 := { setPtimer s id (fun t => { t with running := false }) with
                  list := s.list.erase id }
      let r := ptimer_sweepAux rest s1
      (r.1, (if (s.timers id).handler then [id] else []) ++ r.2)
    else
      ptimer_sweepAux rest (ptimer_next_stop_update s id)

/-- One POLL-triggered sweep of the ptimer process (ptimer.c): clear
`ptimer_pending`, then walk the running list once. -/
def ptimer_sweep (s : PtState) : PtState × List Nat :=
  ptimer_sweepAux s.list { s with pending := false }

/-- Steps of the ptimer subsystem: the public operations, the POLL sweep,
and the passage of time. -/
inductive PtStep : PtState → PtState → Prop
  | start (s : PtState) (id span : Nat) (handler : Bool) :
      PtStep s (ptimer_start s id span handler)
  | restart (s : PtState) (id : Nat) : PtStep s (ptimer_restart s id)
  | reset (s : PtState) (id : Nat) : PtStep s (ptimer_reset s id)
  | stop (s : PtState) (id : Nat) : PtStep s (ptimer_stop s id)
  | sweep (s : PtState) : PtStep s (ptimer_sweep s).1
  | tick (s : PtState) (t : Nat) : PtStep s { s with now := t }

/-- Initial ptimer state: the running list as initialized by the ptimer
process (`ptlist_init`), no record running, nothing pending. -/
def ptInitState : PtState :=
  { timers := fun _ => { timer := { start := 0, span := 0 }, handler := false, running := false }
    list := []
    pending := false
    next_stop := 0
    now := 0 }

/-- Reachability of a ptimer state by the ptimer operations. -/
def PtReach (s : PtState) : Prop :=
  Relation.ReflTransGen PtStep ptInitState s

/-- INT16_MAX. -/
def INT16_MAX : Int := 32767

/-- INT16_MIN. -/
def INT16_MIN : Int := -32768

/-- fpxx_sat_m(var,min,max) (fxp16.h): clamp into `[min, max]`. -/
def fpxx_sat (lo hi v : Int) : Int :=
  if v < lo then lo else if v > hi then hi else v

/-- fxp16_sat_m (fxp16.h): clamp into the signed 16-bit range. -/
def fxp16_sat (v : Int) : Int :=
  fpxx_sat INT16_MIN INT16_MAX v

/-- C library `round`: round half away from zero, modelled on rationals. -/
def c_round (x : ℚ) : Int :=
  if 0 ≤ x then ⌊x + 1 / 2⌋ else ⌈x - 1 / 2⌉

/-- fxp16_flt2fp (fxp16.c): `round(var * (1 << frac))` saturated to the
16-bit range.  The C `float` argument is modelled as a rational; the
dyadic values used in the claims are exactly representable either way. -/
def fxp16_flt2fp (var : ℚ) (frac : Nat) : Int :=
  fxp16_sat (c_round (var * 2 ^ frac))

/-- Arithmetic right shift of a two's-complement value held in an `Int`
(floor division by the power of two). -/
def c_asr (v : Int) (n : Nat) : Int :=
  Int.fdiv v (2 ^ n)

/-- fpxx_arshift_m in the FXP16CONF_ARSHIFT_W_ROUNDING build (fxp16.h):
shift by `rshift - 1`, then round the last bit half toward +∞ for
non-negatives and truncate toward −∞ for negatives. -/
def fpxx_arshift (result : Int) (rshift : Nat) : Int :=
  if rshift > 0 then
    let r1 := c_asr result (rshift - 1)
    if r1 < 0 then c_asr r1 1 else c_asr r1 1 + r1.emod 2
  else result

/-- fxp32_arshift (fxp16.c): the rounding arithmetic shift on a 32-bit
intermediate. -/
def fxp32_arshift (var : Int) (rshift : Nat) : Int :=
  fpxx_arshift var rshift

/-- The π-normalized `atan(2^-i)` lookup table `atan_table_q15_pi`
(fxp16.c). -/
def atan_table_q15_pi : List Int :=
  [0x2000, 0x12E4, 0x09FB, 0x0511, 0x028B, 0x0146, 0x00A3,
   0x0051, 0x0029, 0x0014, 0x000A, 0x0005, 0x0003, 0x0001]

/-- CORDIC_K_Q15 (fxp16.c): the pre-scaled rotation gain `0x4DBA`. -/
def CORDIC_K_Q15 : Int := 0x4DBA

/-- One rotation step of cordic_sin_cos_q15_pi (fxp16.c): shift the
current vector, saturate, and steer by the sign of the residual angle. -/
def cordic_step (st : Int × Int × Int) (i : Nat) : Int × Int × Int :=
  let x := st.1
  let y := st.2.1
  let z := st.2.2
  let x_shift := c_asr x i
  let y_shift := c_asr y i
  let a := atan_table_q15_pi.getD i 0
  if 0 ≤ z then
    (fxp16_sat (x - y_shift), fxp16_sat (y + x_shift), z - a)
  else
    (fxp16_sat (x + y_shift), fxp16_sat (y - x_shift), z + a)

/-- cordic_sin_cos_q15_pi (fxp16.c): fold the angle into `[-π/2, π/2]`
remembering the cosine sign, run 14 CORDIC rotation iterations from the
pre-scaled start vector, and apply the quadrant sign. -/
def cordic_sin_cos_q15_pi (angle_q15 : Int) : Int × Int :=
  let zs : Int × Int :=
    if angle_q15 > 16384 then (32767 - angle_q15, -1)
    else if angle_q15 < -16384 then (-32768 - angle_q15, -1)
    else (angle_q15, 1)
  let r := (List.range 14).foldl cordic_step (CORDIC_K_Q15, 0, zs.1)
  let cos_q15 := if zs.2 > 0 then r.1 else -r.1
  let sin_q15 := r.2.1
  (sin_q15, cos_q15)

/-- fxp16_tan (fxp16.c): the `switch` returns the domain-error sentinels at
the two half-π angles (setting `errno = EDOM`, modelled as the Boolean
component); otherwise divide sine by cosine (C truncating division) and
rescale to the requested fraction count (the `uint8_t` shift parameter
wraps modulo 256).  The result pairs the returned value with the
domain-error indicator. -/
def fxp16_tan (fp : Int) (frac : Nat) : Int × Bool :=
  if fp = -16384 then (INT16_MAX, true)
  else if fp = 16384 then (INT16_MIN, true)
  else
    let sc := cordic_sin_cos_q15_pi fp
    let x := Int.tdiv (sc.1 * 2 ^ 15) sc.2
    let x2 := fxp32_arshift x (((15 - (frac : Int)).emod 256).toNat)
    (fxp16_sat x2, false)

/-- Conversion of an `int16_t` (or any C integer) to `uint32_t`:
reduction modulo `2^32`. -/
def uint32_ofInt (x : Int) : Nat :=
  (x.emod (2 ^ 32)).toNat

/-- Reinterpretation of a `uint16_t` value as `int16_t`. -/
def int16_ofUInt16 (n : Nat) : Int :=
  if n % 2 ^ 16 < 2 ^ 15 then ((n % 2 ^ 16 : Nat) : Int)
  else ((n % 2 ^ 16 : Nat) : Int) - 2 ^ 16

/-- The `while (bit > a) bit >>= 2;` loop of fxp16_sqrt (fxp16.c). -/
def shrinkBit (a bit : Nat) : Nat :=
  if a < bit then shrinkBit a (bit / 4) else bit
termination_by bit
decreasing_by
  exact Nat.div_lt_self (by omega) (by omega)

/-- The restoring square-root loop of fxp16_sqrt (fxp16.c): while `bit` is
non-zero, either subtract `r + bit` and fold `bit` into the root, or just
halve `r`; then shift `bit` down by two. -/
def isqrtLoop (a r bit : Nat) : Nat :=
  if bit = 0 then r
  else if r + bit ≤ a then isqrtLoop (a - (r + bit)) (r / 2 + bit) (bit / 4)
  else isqrtLoop a (r / 2) (bit / 4)
termination_by bit
decreasing_by
  · exact Nat.div_lt_self (by omega) (by omega)
  · exact Nat.div_lt_self (by omega) (by omega)

/-- fxp16_sqrt (fxp16.c): clamp the fraction count to 15, compute
`a = (uint32_t)x << frac_bits`, run the restoring integer square root,
saturate to 16 bits and return (the `uint16_t` result reinterpreted as the
signed return type). -/
def fxp16_sqrt (x : Int) (frac_bits : Nat) : Int :=
  let frac := if frac_bits > 15 then 15 else frac_bits
  let a : Nat := (uint32_ofInt x * 2 ^ frac) % 2 ^ 32
  let bit := shrinkBit a (2 ^ 30)
  let r := isqrtLoop a 0 bit
  let r2 := if r > 0xFFFF then 0xFFFF else r
  int16_ofUInt16 r2

/-- Scheduler steps for the reachability claims: posting to the queue,
synchronous posting, and one main-loop iteration. -/
inductive SchedStep {N : Nat} : SchedState N → SchedState N → Prop
  | post (s : SchedState N) (dst evtid data : Nat) :
      SchedStep s (process_post s dst evtid data).2
  | post_sync (s : SchedState N) (dst evtid data : Nat) :
      SchedStep s (process_post_sync s dst evtid data).2.1
  | run (s : SchedState N) :
      SchedStep s (process_run s).2.1

/-- Reachability from the initialized scheduler by the scheduler
operations. -/
def SchedReach {N : Nat} (s0 s : SchedState N) : Prop :=
  Relation.ReflTransGen SchedStep (process_init s0) s

/-- A process whose thread never moves its resume point. -/
def trivialProc : Proc :=
  { lc := 0
    thread := fun lc _ => (lc, PT_STATE_WAITING)
    data := 0
    pollreq := false }

/-- A concrete scheduler base state used to instantiate the theorems. -/
def baseState (N : Nat) : SchedState N :=
  { procs := fun _ => trivialProc
    running_list := []
    current := none
    queue := { head := 0, tail := 0, count := 0,
               items := fun _ => { id := 0, data := 0, efrom := none, eto := 0 } }
    global_pollreq := false
    errflags_eventqueue := false
    maxqueuecount := 0
    ptimer_pending := false
    ptimer_next_stop := 0
    now := 0
    ptimer_pid := 0 }

/-- Parent-side state of a PT_SPAWN site: the parent's local continuation
and the caller-owned child local continuation (pt.h). -/
structure SpawnSt where
  plc : Nat
  clc : Nat
  deriving DecidableEq, Repr

/-- Resume-point label standing for the `__LINE__` recorded by the
`LC_SET` inside PT_WAIT_THREAD (pt.h). -/
def LC_SPAWN_SITE : Nat := 1

/-- Resume-point label standing for the `__LINE__` recorded by a
`PT_YIELD` inside a child protothread. -/
def LC_CHILD_YIELD : Nat := 2

/-- The test at the spawn site, as expanded from
`PT_WAIT_THREAD(pt, thread) = PT_WAIT_WHILE(pt, PT_SCHEDULE(thread) == PT_STATE_TERMINATED)`
(pt.h): run the child once; while the child's return value equals
TERMINATED, return WAITING; otherwise fall through to `PT_END`, which sets
the parent's resume point to LC_DEFAULT and returns TERMINATED. -/
def spawn_site (child : Nat → Nat × Nat) (st : SpawnSt) : SpawnSt × Nat :=
  let r := child st.clc
  if r.2 = PT_STATE_TERMINATED then
    ({ st with clc := r.1 }, PT_STATE_WAITING)
  else
    ({ plc := LC_DEFAULT, clc := r.1 }, PT_STATE_TERMINATED)

/-- A parent protothread whose body is `PT_BEGIN; PT_SPAWN(child); PT_END`
(pt.h), embedded through the `LC_RESUME` switch on the parent's resume
point: from the initial resume point, `PT_INIT` the child and record the
spawn site; from the spawn site, re-run the site test; from any other
resume point, the switch jumps to the default label and the body returns
TERMINATED. -/
def spawn_parent_thread (child : Nat → Nat × Nat) (st : SpawnSt) : SpawnSt × Nat :=
  if st.plc = 0 then
    spawn_site child { plc := LC_SPAWN_SITE, clc := 0 }
  else if st.plc = LC_SPAWN_SITE then
    spawn_site child st
  else
    (st, PT_STATE_TERMINATED)

/-- A child protothread whose body is `PT_BEGIN; PT_END`: it returns
TERMINATED on its very first invocation. -/
def child_term (clc : Nat) : Nat × Nat :=
  if clc = 0 then (LC_DEFAULT, PT_STATE_TERMINATED)
  else (clc, PT_STATE_TERMINATED)

/-- A child protothread whose body is `PT_BEGIN; PT_YIELD; PT_END`: it
yields once (returning WAITING) and terminates on its second invocation. -/
def child_yield_once (clc : Nat) : Nat × Nat :=
  if clc = 0 then (LC_CHILD_YIELD, PT_STATE_WAITING)
  else if clc = LC_CHILD_YIELD then (LC_DEFAULT, PT_STATE_TERMINATED)
  else (clc, PT_STATE_TERMINATED)

/-- C2: process_post fails exactly when the queue already holds at least
`N` events; on failure the queue (items, head, tail, count) is untouched
and only the statistics latch `errflags.eventqueue` is set; on success the
record `{from = current, to, id, data}` is written at the tail slot, the
tail advances with wraparound, the count grows by one, and true is
returned. -/
theorem process_post_spec {N : Nat} (s : SchedState N) (dst evtid data : Nat) :
    (N ≤ s.queue.count →
      process_post s dst evtid data = (false, { s with errflags_eventqueue := true })) ∧
    (s.queue.count < N →
      (process_post s dst evtid data).1 = true ∧
      (process_post s dst evtid data).2.queue.items =
        Function.update s.queue.items s.queue.tail
          { id := evtid, data := data, efrom := s.current, eto := dst } ∧
      (process_post s dst evtid data).2.queue.count = s.queue.count + 1 ∧
      (process_post s dst evtid data).2.queue.head = s.queue.head ∧
      (process_post s dst evtid data).2.queue.tail =
        (if s.queue.tail + 1 = N then 0 else s.queue.tail + 1) ∧
      (process_post s dst evtid data).2.errflags_eventqueue = s.errflags_eventqueue) := by
  constructor
  · intro h
    simp [process_post, RINGBUFFER_FULL, h]
  · intro h
    have hfull : ¬ (N ≤ s.queue.count) := by omega
    simp [process_post, RINGBUFFER_FULL, hfull, RINGBUFFER_PUSH]

/-- Witness for C2 at a concrete state: the success branch of
process_post on the empty one-slot queue. -/
theorem process_post_spec_witness :
    (1 ≤ (baseState 1).queue.count →
      process_post (baseState 1) 0 5 7 =
        (false, { baseState 1 with errflags_eventqueue := true })) ∧
    ((baseState 1).queue.count < 1 →
      (process_post (baseState 1) 0 5 7).1 = true ∧
      (process_post (baseState 1) 0 5 7).2.queue.items =
        Function.update (baseState 1).queue.items (baseState 1).queue.tail
          { id := 5, data := 7, efrom := (baseState 1).current, eto := 0 } ∧
      (process_post (baseState 1) 0 5 7).2.queue.count = (baseState 1).queue.count + 1 ∧
      (process_post (baseState 1) 0 5 7).2.queue.head = (baseState 1).queue.head ∧
      (process_post (baseState 1) 0 5 7).2.queue.tail =
        (if (baseState 1).queue.tail + 1 = 1 then 0 else (baseState 1).queue.tail + 1) ∧
      (process_post (baseState 1) 0 5 7).2.errflags_eventqueue =
        (baseState 1).errflags_eventqueue) :=
  process_post_spec (baseState 1) 0 5 7

/-- C10: synchronous delivery to a process that is not running, with an
event id other than START, is a silent no-op: both process_post_sync and
process_deliver_event return false, deliver nothing, and leave the whole
scheduler state (running list, current process, event queue) unchanged. -/
theorem process_post_sync_dead_noop {N : Nat} (s : SchedState N) (dst evtid data : Nat)
    (h1 : PROCESS_IS_RUNNING s dst = false) (h2 : evtid ≠ PROCESS_EVENT_START) :
    process_post_sync s dst evtid data = (false, s, []) ∧
    (∀ evt : Event, evt.eto = dst → evt.id = evtid →
      process_deliver_event s evt = (false, s, [])) := by
  have hd : ∀ evt : Event, evt.eto = dst → evt.id = evtid →
      process_deliver_event s evt = (false, s, []) := by
    intro evt hto hid
    simp [process_deliver_event, hto, hid, h1, h2]
  refine ⟨hd _ rfl rfl, hd⟩

/-- Witness for C10: delivering EXIT to a never-started process of the
concrete base state. -/
theorem process_post_sync_dead_noop_witness :
    PROCESS_IS_RUNNING (baseState 1) 3 = false ∧
    (4 : Nat) ≠ PROCESS_EVENT_START ∧
    process_post_sync (baseState 1) 3 4 0 = (false, baseState 1, []) :=
  ⟨by decide, by decide,
    (process_post_sync_dead_noop (baseState 1) 3 4 0 (by decide) (by decide)).1⟩

/-- C7: process_start on a process that is not running sets the user data,
resets the resume point to the initial value, pushes the process at the
front of the running list, then synchronously delivers exactly one START
event whose `from` field is the process that called process_start (the
current process at call time), and returns true; on an already running
process it returns false and changes nothing. -/
theorem process_start_spec {N : Nat} (s : SchedState N) (p data : Nat) :
    (PROCESS_IS_RUNNING s p = true → process_start s p data = (false, s, [])) ∧
    (PROCESS_IS_RUNNING s p = false →
      (process_start s p data =
        (true,
          (process_post_sync
            { setProc s p (fun pr => { pr with data := data, lc := 0 }) with
              running_list := p :: s.running_list } p PROCESS_EVENT_START data).2.1,
          (process_post_sync
            { setProc s p (fun pr => { pr with data := data, lc := 0 }) with
              running_list := p :: s.running_list } p PROCESS_EVENT_START data).2.2)) ∧
      (process_post_sync
        { setProc s p (fun pr => { pr with data := data, lc := 0 }) with
          running_list := p :: s.running_list } p PROCESS_EVENT_START data).1 = true ∧
      (process_post_sync
        { setProc s p (fun pr => { pr with data := data, lc := 0 }) with
          running_list := p :: s.running_list } p PROCESS_EVENT_START data).2.2 =
        [{ id := PROCESS_EVENT_START, data := data, efrom := s.current, eto := p }]) := by
  constructor
  · intro h
    simp [process_start, h]
  · intro h
    refine ⟨?_, ?_, ?_⟩
    · simp [process_start, h, setProc]
    · simp [process_post_sync, process_deliver_event]
    · simp [process_post_sync, process_deliver_event, setProc]

/-- Witness for C7: starting a fresh process in the concrete base state. -/
theorem process_start_spec_witness :
    PROCESS_IS_RUNNING (baseState 1) 0 = false ∧
    (process_start (baseState 1) 0 9).1 = true :=
  ⟨by decide, by
    have h := (process_start_spec (baseState 1) 0 9).2 (by decide)
    rw [h.1]⟩

/-- Frame lemma: event delivery only touches the destination's resume
point and the running list; queue, flags, timers and context are restored
or untouched. -/
theorem deliver_frame {N : Nat} (s : SchedState N) (evt : Event) :
    (process_deliver_event s evt).2.1.queue = s.queue ∧
    (process_deliver_event s evt).2.1.global_pollreq = s.global_pollreq ∧
    (process_deliver_event s evt).2.1.current = s.current ∧
    (process_deliver_event s evt).2.1.ptimer_pending = s.ptimer_pending ∧
    (process_deliver_event s evt).2.1.ptimer_next_stop = s.ptimer_next_stop ∧
    (process_deliver_event s evt).2.1.now = s.now ∧
    (process_deliver_event s evt).2.1.ptimer_pid = s.ptimer_pid ∧
    (process_deliver_event s evt).2.1.errflags_eventqueue = s.errflags_eventqueue ∧
    (process_deliver_event s evt).2.1.maxqueuecount = s.maxqueuecount := by
  unfold process_deliver_event
  split_ifs <;> simp [setProc] <;> split <;> simp

/-- Frame lemma: event delivery leaves every process other than the
destination untouched, and poll-request flags of all processes
untouched. -/
theorem deliver_procs {N : Nat} (s : SchedState N) (evt : Event) :
    (∀ q, q ≠ evt.eto → (process_deliver_event s evt).2.1.procs q = s.procs q) ∧
    (∀ q, ((process_deliver_event s evt).2.1.procs q).pollreq = (s.procs q).pollreq) := by
  unfold process_deliver_event
  constructor
  · intro q hq
    split_ifs <;> simp [setProc, Function.update_noteq hq] <;> split <;>
      simp [Function.update_noteq hq]
  · intro q
    rcases eq_or_ne q evt.eto with h | h
    · subst h
      split_ifs <;> simp [setProc, Function.update_same] <;> split <;>
        simp [Function.update_same]
    · split_ifs <;> simp [setProc, Function.update_noteq h] <;> split <;>
        simp [Function.update_noteq h]

/-- Frame lemma for one poll-drain pass: the event queue, the current
process, the global poll flag and the ptimer service state are unchanged. -/
theorem pollForeach_frame {N : Nat} :
    ∀ (l : List Nat) (s : SchedState N),
    (pollForeach l s).1.queue = s.queue ∧
    (pollForeach l s).1.current = s.current ∧
    (pollForeach l s).1.global_pollreq = s.global_pollreq ∧
    (pollForeach l s).1.ptimer_pending = s.ptimer_pending ∧
    (pollForeach l s).1.ptimer_next_stop = s.ptimer_next_stop ∧
    (pollForeach l s).1.now = s.now ∧
    (pollForeach l s).1.ptimer_pid = s.ptimer_pid := by
  intro l
  induction l with
  | nil => intro s; simp [pollForeach]
  | cons p rest ih =>
    intro s
    by_cases hp : (s.procs p).pollreq
    · have hd := deliver_frame (setProc s p (fun pr => { pr with pollreq := false }))
        { id := PROCESS_EVENT_POLL, data := 0,
          efrom := (setProc s p (fun pr => { pr with pollreq := false })).current, eto := p }
      have hrest := ih ((process_post_sync
        (setProc s p (fun pr => { pr with pollreq := false })) p PROCESS_EVENT_POLL 0).2.1)
      simp only [pollForeach, hp, if_true, process_post_sync] at *
      simp_all [setProc]
    · simpa [pollForeach, hp] using ih s

/-- Frame lemma: the poll-drain loop never touches the event queue, the
current process, or the ptimer service state. -/
theorem pollLoop_frame {N : Nat} :
    ∀ (fuel : Nat) (s : SchedState N),
    (pollLoop fuel s).1.queue = s.queue ∧
    (pollLoop fuel s).1.current = s.current ∧
    (pollLoop fuel s).1.ptimer_pending = s.ptimer_pending ∧
    (pollLoop fuel s).1.ptimer_next_stop = s.ptimer_next_stop ∧
    (pollLoop fuel s).1.now = s.now ∧
    (pollLoop fuel s).1.ptimer_pid = s.ptimer_pid := by
  intro fuel
  induction fuel with
  | zero => intro s; simp [pollLoop]
  | succ n ih =>
    intro s
    by_cases hg : s.global_pollreq
    · have hf := pollForeach_frame (N := N)
        ({ s with global_pollreq := false }).running_list { s with global_pollreq := false }
      have hrest := ih (pollForeach
        ({ s with global_pollreq := false }).running_list { s with global_pollreq := false }).1
      simp only [pollLoop, hg, if_true]
      simp_all
    · simp [pollLoop, hg]

/-- Frame lemma: the ptimer service routine never touches the event
queue. -/
theorem ptimer_processing_queue {N : Nat} (s : SchedState N) :
    (ptimer_processing s).1.queue = s.queue := by
  unfold ptimer_processing
  split_ifs with h
  · exact (deliver_frame { s with ptimer_pending := false } (ptimer_poll_evt s.ptimer_pid)).1
  · rfl

/-- The queue count after one process_post: unchanged when full, grown by
one otherwise. -/
theorem process_post_count {N : Nat} (s : SchedState N) (dst evtid data : Nat) :
    (process_post s dst evtid data).2.queue.count =
      if N ≤ s.queue.count then s.queue.count else s.queue.count + 1 := by
  by_cases h : N ≤ s.queue.count
  · simp [process_post, RINGBUFFER_FULL, h]
  · simp [process_post, RINGBUFFER_FULL, h, RINGBUFFER_PUSH]

/-- The queue count after one process_run iteration: decremented exactly
when the queue was non-empty. -/
theorem process_run_count {N : Nat} (s : SchedState N) :
    (process_run s).2.1.queue.count =
      if s.queue.count = 0 then 0 else s.queue.count - 1 := by
  have hq : (ptimer_processing (pollLoop 2 s).1).1.queue = s.queue := by
    rw [ptimer_processing_queue, (pollLoop_frame 2 s).1]
  have hd := (deliver_frame (ptimer_processing (pollLoop 2 s).1).1
      ((ptimer_processing (pollLoop 2 s).1).1.queue.items
        (ptimer_processing (pollLoop 2 s).1).1.queue.head)).1
  simp only [process_run]
  by_cases hc : (ptimer_processing (pollLoop 2 s).1).1.queue.count = 0
  · have hc0 : s.queue.count = 0 := by rw [← hq]; exact hc
    simp [hc, hc0, hq]
  · have hc0 : ¬ s.queue.count = 0 := by rw [← hq]; exact hc
    simp [hc, hc0, RINGBUFFER_POP, hd, hq]
    rw [(deliver_frame _ _).1, hq]

/-- C3: in every scheduler state reachable from the initialized queue by
process_post, process_post_sync and process_run, the queue count never
exceeds the capacity `N`; a push performed after a successful non-full
check grows the count by exactly one, and the pop of a non-empty queue in
process_run shrinks it by exactly one. -/
theorem event_queue_count_invariant {N : Nat} (s0 s : SchedState N)
    (h : SchedReach s0 s) :
    s.queue.count ≤ N ∧
    (∀ dst evtid data : Nat, s.queue.count < N →
      (process_post s dst evtid data).2.queue.count = s.queue.count + 1) ∧
    (s.queue.count ≠ 0 →
      (process_run s).2.1.queue.count = s.queue.count - 1) := by
  refine ⟨?_, ?_, ?_⟩
  · induction h with
    | refl => simp [process_init, RINGBUFFER_INIT]
    | @tail b c hab hbc ih =>
      cases hbc with
      | post dst evtid data =>
        rw [process_post_count]
        split_ifs <;> omega
      | post_sync dst evtid data =>
        have := (deliver_frame b
          { id := evtid, data := data, efrom := b.current, eto := dst }).1
        simpa [process_post_sync, this] using ih
      | run =>
        rw [process_run_count]
        split_ifs <;> omega
  · intro dst evtid data hlt
    rw [process_post_count]
    simp [Nat.not_le.mpr hlt]
  · intro hne
    rw [process_run_count]
    simp [hne]

/-- Witness for C3 at the concrete initialized base state. -/
theorem event_queue_count_invariant_witness :
    SchedReach (baseState 2) (process_init (baseState 2)) ∧
    (process_init (baseState 2)).queue.count ≤ 2 :=
  ⟨Relation.ReflTransGen.refl,
    (event_queue_count_invariant (baseState 2) (process_init (baseState 2))
      Relation.ReflTransGen.refl).1⟩


/-- Frame lemma: updating the earliest-stop hint changes neither the timer
records, nor the running list, nor the current time. -/
theorem next_stop_update_frame (s : PtState) (id : Nat) :
    (ptimer_next_stop_update s id).timers = s.timers ∧
    (ptimer_next_stop_update s id).list = s.list ∧
    (ptimer_next_stop_update s id).now = s.now := by
  simp only [ptimer_next_stop_update]
  split_ifs <;> simp

/-- Characterization of ptimer_add_to_list: the record is marked running,
the list gains the record at the front only when it was not running, and
time is untouched. -/
theorem add_to_list_chars (s : PtState) (id : Nat) :
    (ptimer_add_to_list s id).timers =
      Function.update s.timers id { s.timers id with running := true } ∧
    (ptimer_add_to_list s id).list =
      (if (s.timers id).running = false then id :: s.list else s.list) ∧
    (ptimer_add_to_list s id).now = s.now := by
  cases hrun : (s.timers id).running with
  | false =>
    have h1 := next_stop_update_frame
      (setPtimer { s with list := id :: s.list } id (fun t => { t with running := true })) id
    refine ⟨?_, ?_, ?_⟩ <;>
      simp [ptimer_add_to_list, hrun, setPtimer, h1.1, h1.2.1, h1.2.2] <;>
      simp [setPtimer] at h1 <;> simp [h1]
  | true =>
    have h1 := next_stop_update_frame
      (setPtimer s id (fun t => { t with running := true })) id
    refine ⟨?_, ?_, ?_⟩ <;>
      simp [ptimer_add_to_list, hrun, setPtimer, h1.1, h1.2.1, h1.2.2] <;>
      simp [setPtimer] at h1 <;> simp [h1]

/-- Characterization of ptimer_remove_from_list. -/
theorem remove_from_list_chars (s : PtState) (id : Nat) :
    (ptimer_remove_from_list s id).timers =
      (if (s.timers id).running = true then
        Function.update s.timers id { s.timers id with running := false }
      else s.timers) ∧
    (ptimer_remove_from_list s id).list =
      (if (s.timers id).running = true then s.list.erase id else s.list) ∧
    (ptimer_remove_from_list s id).now = s.now := by
  cases hrun : (s.timers id).running with
  | false => simp [ptimer_remove_from_list, hrun]
  | true => simp [ptimer_remove_from_list, hrun, setPtimer]

/-- Adding a ptimer preserves the running-flag/list-membership invariant
and the absence of duplicates. -/
theorem add_to_list_inv (s : PtState) (id : Nat)
    (h1 : ∀ q, (s.timers q).running = true ↔ q ∈ s.list)
    (h2 : s.list.Nodup) :
    (∀ q, ((ptimer_add_to_list s id).timers q).running = true ↔
      q ∈ (ptimer_add_to_list s id).list) ∧
    (ptimer_add_to_list s id).list.Nodup := by
  obtain ⟨ht, hl, -⟩ := add_to_list_chars s id
  constructor
  · intro q
    rw [ht, hl]
    rcases eq_or_ne q id with rfl | h
    · simp only [Function.update_same]
      split_ifs with hr
      · simp
      · have hrt : (s.timers q).running = true := by
          revert hr; cases (s.timers q).running <;> simp
        simp [(h1 q).mp hrt]
    · rw [Function.update_noteq h]
      split_ifs with hr
      · rw [h1 q]
        simp [h]
      · exact h1 q
  · rw [hl]
    split_ifs with hr
    · have hnm : id ∉ s.list := fun hm => by
        have := (h1 id).mpr hm
        rw [hr] at this
        cases this
      exact List.nodup_cons.mpr ⟨hnm, h2⟩
    · exact h2

/-- Removing a ptimer preserves the running-flag/list-membership invariant
and the absence of duplicates. -/
theorem remove_from_list_inv (s : PtState) (id : Nat)
    (h1 : ∀ q, (s.timers q).running = true ↔ q ∈ s.list)
    (h2 : s.list.Nodup) :
    (∀ q, ((ptimer_remove_from_list s id).timers q).running = true ↔
      q ∈ (ptimer_remove_from_list s id).list) ∧
    (ptimer_remove_from_list s id).list.Nodup := by
  obtain ⟨ht, hl, -⟩ := remove_from_list_chars s id
  constructor
  · intro q
    rw [ht, hl]
    split_ifs with hr
    · rcases eq_or_ne q id with rfl | h
      · simp [Function.update_same, h2.not_mem_erase]
      · rw [Function.update_noteq h, List.mem_erase_of_ne h]
        exact h1 q
    · exact h1 q
  · rw [hl]
    split_ifs with hr
    · exact h2.erase id
    · exact h2

/-- The sweep body preserves the running-flag/list-membership invariant
and the absence of duplicates. -/
theorem sweepAux_inv :
    ∀ (l : List Nat) (s : PtState),
    (∀ q, (s.timers q).running = true ↔ q ∈ s.list) → s.list.Nodup →
    (∀ q, (((ptimer_sweepAux l s).1.timers q).running = true ↔
      q ∈ (ptimer_sweepAux l s).1.list)) ∧
    (ptimer_sweepAux l s).1.list.Nodup := by
  intro l
  induction l with
  | nil => intro s h1 h2; simpa [ptimer_sweepAux] using ⟨h1, h2⟩
  | cons id rest ih =>
    intro s h1 h2
    by_cases hexp : ptimer_expired s id = true
    · have h1' : ∀ q,
          (({ setPtimer s id (fun t => { t with running := false }) with
              list := s.list.erase id }).timers q).running = true ↔
          q ∈ ({ setPtimer s id (fun t => { t with running := false }) with
              list := s.list.erase id }).list := by
        intro q
        rcases eq_or_ne q id with rfl | h
        · simp [setPtimer, Function.update_same, h2.not_mem_erase]
        · simp only [setPtimer, Function.update_noteq h]
          show (s.timers q).running = true ↔ q ∈ s.list.erase id
          rw [List.mem_erase_of_ne h]
          exact h1 q
      have h2' : ({ setPtimer s id (fun t => { t with running := false }) with
          list := s.list.erase id }).list.Nodup := h2.erase id
      have := ih _ h1' h2'
      simpa [ptimer_sweepAux, hexp] using this
    · have hfr := next_stop_update_frame s id
      have h1' : ∀ q, ((ptimer_next_stop_update s id).timers q).running = true ↔
          q ∈ (ptimer_next_stop_update s id).list := by
        intro q; rw [hfr.1, hfr.2.1]; exact h1 q
      have h2' : (ptimer_next_stop_update s id).list.Nodup := by
        rw [hfr.2.1]; exact h2
      have := ih _ h1' h2'
      simpa [ptimer_sweepAux, hexp] using this

/-- Updating a ptimer record without touching its running flag preserves
the running-flag/list-membership invariant. -/
theorem setPtimer_inv (s : PtState) (id : Nat) (f : Ptimer → Ptimer)
    (hf : (f (s.timers id)).running = (s.timers id).running)
    (h1 : ∀ q, (s.timers q).running = true ↔ q ∈ s.list) :
    ∀ q, ((setPtimer s id f).timers q).running = true ↔ q ∈ (setPtimer s id f).list := by
  intro q
  rcases eq_or_ne q id with rfl | h
  · show ((Function.update s.timers q (f (s.timers q))) q).running = true ↔ q ∈ s.list
    rw [Function.update_same, hf]
    exact h1 q
  · show ((Function.update s.timers id (f (s.timers id))) q).running = true ↔ q ∈ s.list
    rw [Function.update_noteq h]
    exact h1 q

/-- C5: in every state reachable by the ptimer operations (start, restart,
reset, stop, the POLL sweep, and the passage of time), a ptimer record is
flagged running exactly when it is a member of the running list, the list
has no duplicate membership, and adding an already-running ptimer leaves
the list unchanged (it only refreshes the earliest-stop hint). -/
theorem ptimer_running_iff_member (s : PtState) (h : PtReach s) :
    (∀ id, ((s.timers id).running = true ↔ id ∈ s.list)) ∧
    s.list.Nodup ∧
    (∀ id, (s.timers id).running = true →
      (ptimer_add_to_list s id).list = s.list) := by
  have main : (∀ id, ((s.timers id).running = true ↔ id ∈ s.list)) ∧
      s.list.Nodup := by
    induction h with
    | refl => simp [ptInitState]
    | @tail b c hab hbc ih =>
      cases hbc with
      | start id span handler =>
        refine add_to_list_inv _ id ?_ ih.2
        exact setPtimer_inv b id _ rfl ih.1
      | restart id =>
        refine add_to_list_inv _ id ?_ ih.2
        exact setPtimer_inv b id _ rfl ih.1
      | reset id =>
        refine add_to_list_inv _ id ?_ ih.2
        exact setPtimer_inv b id _ rfl ih.1
      | stop id =>
        exact remove_from_list_inv b id ih.1 ih.2
      | sweep =>
        exact sweepAux_inv b.list { b with pending := false } ih.1 ih.2
      | tick t =>
        exact ih
  refine ⟨main.1, main.2, ?_⟩
  intro id hrun
  obtain ⟨-, hl, -⟩ := add_to_list_chars s id
  rw [hl, hrun]
  simp

/-- Witness for C5 at the initial ptimer state. -/
theorem ptimer_running_iff_member_witness :
    PtReach ptInitState ∧
    ((ptInitState.timers 0).running = true ↔ 0 ∈ ptInitState.list) :=
  ⟨Relation.ReflTransGen.refl,
    (ptimer_running_iff_member ptInitState Relation.ReflTransGen.refl).1 0⟩

/-- The sweep trace: the handlers fired by one walk of the node sequence
are exactly the expired records carrying a handler, in the order of the
walked sequence. -/
theorem sweepAux_trace :
    ∀ (l : List Nat) (s : PtState),
    (ptimer_sweepAux l s).2 =
      l.filter (fun id => ptimer_expired s id && (s.timers id).handler) := by
  intro l
  induction l with
  | nil => intro s; simp [ptimer_sweepAux]
  | cons id rest ih =>
    intro s
    by_cases hexp : ptimer_expired s id = true
    · have hpred : ∀ x ∈ rest,
          (ptimer_expired ({ setPtimer s id (fun t => { t with running := false }) with
            list := s.list.erase id }) x &&
           (({ setPtimer s id (fun t => { t with running := false }) with
            list := s.list.erase id }).timers x).handler) =
          (ptimer_expired s x && (s.timers x).handler) := by
        intro x _
        rcases eq_or_ne x id with rfl | h
        · simp [setPtimer, ptimer_expired, timer_expired]
        · simp [setPtimer, Function.update_noteq h, ptimer_expired, timer_expired]
      cases hh : (s.timers id).handler with
      | false =>
        simp [ptimer_sweepAux, hexp, ih, List.filter_congr hpred,
          List.filter_cons, hh]
      | true =>
        simp [ptimer_sweepAux, hexp, ih, List.filter_congr hpred,
          List.filter_cons, hh]
    · have hfr := next_stop_update_frame s id
      have hpred : ∀ x ∈ rest,
          (ptimer_expired (ptimer_next_stop_update s id) x &&
           ((ptimer_next_stop_update s id).timers x).handler) =
          (ptimer_expired s x && (s.timers x).handler) := by
        intro x _
        simp [ptimer_expired, timer_expired, hfr.1, hfr.2.2]
      simp [ptimer_sweepAux, hexp, ih, List.filter_congr hpred, List.filter_cons]

/-- The POLL sweep fires exactly the expired handler-carrying records, in
running-list order. -/
theorem ptimer_sweep_trace (s : PtState) :
    (ptimer_sweep s).2 =
      s.list.filter (fun id => ptimer_expired s id && (s.timers id).handler) := by
  have h := sweepAux_trace s.list { s with pending := false }
  simpa [ptimer_sweep, ptimer_expired, timer_expired] using h

/-- Characterization of ptimer_start on a record that is not running: the
record gets the new timer and handler and is pushed at the front of the
running list. -/
theorem ptimer_start_chars (s : PtState) (id span : Nat) (hb : Bool)
    (hrun : (s.timers id).running = false) :
    (ptimer_start s id span hb).timers =
      Function.update s.timers id
        { timer := timer_start s.now span, handler := hb, running := true } ∧
    (ptimer_start s id span hb).list = id :: s.list ∧
    (ptimer_start s id span hb).now = s.now := by
  obtain ⟨ht, hl, hn⟩ := add_to_list_chars
    (setPtimer s id (fun t => { t with handler := hb, timer := timer_start s.now span })) id
  have hrec : (setPtimer s id
      (fun t => { t with handler := hb, timer := timer_start s.now span })).timers id
      = { timer := timer_start s.now span, handler := hb,
          running := (s.timers id).running } := by
    simp [setPtimer]
  refine ⟨?_, ?_, ?_⟩
  · show (ptimer_add_to_list _ id).timers = _
    rw [ht, hrec]
    simp [setPtimer, Function.update_idem]
  · show (ptimer_add_to_list _ id).list = _
    rw [hl, hrec, hrun]
    simp [setPtimer]
  · show (ptimer_add_to_list _ id).now = _
    rw [hn]
    simp [setPtimer]

/-- Counterexample to C4 as stated: in the concrete scenario of the spec
(P1 and P2 started in that order with equal spans, swept when both are
expired), the sweep fires the handlers in the order P2, P1 — not P1, P2. -/
theorem ptimer_cofired_order_counterexample :
    (ptimer_sweep
      { ptimer_start (ptimer_start ptInitState 1 50 true) 2 50 true with
        now := 50 }).2 = [2, 1] ∧
    ([2, 1] : List Nat) ≠ [1, 2] := by
  constructor
  · decide
  · decide

/-- C4 (amended): for two ptimers started in order P1, P2 with equal
deadlines, the POLL sweep fires the handlers in running-list order, which
is the reverse of insertion order because ptimer_add_to_list pushes at the
front: P2's handler runs before P1's. -/
theorem ptimer_cofired_reverse_order (s0 : PtState) (p q span t : Nat)
    (hpq : p ≠ q)
    (hp : (s0.timers p).running = false)
    (hq : (s0.timers q).running = false)
    (hl : s0.list = [])
    (hpass : timestamp_passed ((s0.now % 2 ^ 32 + span) % 2 ^ 32) t = true) :
    (ptimer_sweep
      { ptimer_start (ptimer_start s0 p span true) q span true with
        now := t }).2 = [q, p] := by
  obtain ⟨ht1, hl1, hn1⟩ := ptimer_start_chars s0 p span true hp
  have hq1 : ((ptimer_start s0 p span true).timers q).running = false := by
    rw [ht1, Function.update_noteq (Ne.symm hpq)]
    exact hq
  obtain ⟨ht2, hl2, hn2⟩ :=
    ptimer_start_chars (ptimer_start s0 p span true) q span true hq1
  have hlist : (ptimer_start (ptimer_start s0 p span true) q span true).list = [q, p] := by
    rw [hl2, hl1, hl]
  have htq : (ptimer_start (ptimer_start s0 p span true) q span true).timers q =
      { timer := timer_start s0.now span, handler := true, running := true } := by
    rw [ht2, Function.update_same, hn1]
  have htp : (ptimer_start (ptimer_start s0 p span true) q span true).timers p =
      { timer := timer_start s0.now span, handler := true, running := true } := by
    rw [ht2, Function.update_noteq hpq, ht1, Function.update_same]
  have hexpq : ptimer_expired { ptimer_start (ptimer_start s0 p span true) q span true with
      now := t } q = true := by
    show timer_expired ((ptimer_start (ptimer_start s0 p span true) q span true).timers q).timer
      t = true
    rw [htq]
    exact hpass
  have hexpp : ptimer_expired { ptimer_start (ptimer_start s0 p span true) q span true with
      now := t } p = true := by
    show timer_expired ((ptimer_start (ptimer_start s0 p span true) q span true).timers p).timer
      t = true
    rw [htp]
    exact hpass
  rw [ptimer_sweep_trace]
  show List.filter _ (ptimer_start (ptimer_start s0 p span true) q span true).list = _
  rw [hlist]
  simp [List.filter_cons, hexpq, hexpp, htq, htp]

/-- Witness for the amended C4 at a concrete instantiation. -/
theorem ptimer_cofired_reverse_order_witness :
    (1 : Nat) ≠ 2 ∧
    (ptInitState.timers 1).running = false ∧
    (ptInitState.timers 2).running = false ∧
    ptInitState.list = [] ∧
    timestamp_passed ((ptInitState.now % 2 ^ 32 + 50) % 2 ^ 32) 50 = true ∧
    (ptimer_sweep
      { ptimer_start (ptimer_start ptInitState 1 50 true) 2 50 true with
        now := 50 }).2 = [2, 1] :=
  ⟨by decide, by decide, by decide, rfl, by decide,
    ptimer_cofired_reverse_order ptInitState 1 2 50 50
      (by decide) (by decide) (by decide) rfl (by decide)⟩

/-- C6 (code evaluated at the failing input): the PT_SPAWN / PT_WAIT_THREAD
embedding waits WHILE the child returns TERMINATED instead of UNTIL.  With
a child that terminates on its first invocation, the parent returns
WAITING on every scheduling, forever — it never falls through the spawn
site; with a child that merely yields (WAITING, not terminated), the
parent falls through immediately. -/
theorem pt_spawn_wait_thread_inverted :
    (∀ n : Nat,
      (fun st => (spawn_parent_thread child_term st).1)^[n + 1]
          { plc := 0, clc := 0 } =
        { plc := LC_SPAWN_SITE, clc := LC_DEFAULT } ∧
      (spawn_parent_thread child_term
        ((fun st => (spawn_parent_thread child_term st).1)^[n]
          { plc := 0, clc := 0 })).2 = PT_STATE_WAITING) ∧
    spawn_parent_thread child_yield_once { plc := 0, clc := 0 } =
      ({ plc := LC_DEFAULT, clc := LC_CHILD_YIELD }, PT_STATE_TERMINATED) := by
  constructor
  · intro n
    induction n with
    | zero => exact ⟨by decide, by decide⟩
    | succ k ih =>
      constructor
      · rw [Function.iterate_succ_apply', ih.1]
        decide
      · rw [ih.1]
        decide
  · decide

/-- Counterexample to C8 as stated: fxp16_tan pairs the sentinels the
other way round — the π-normalized +π/2 input (16384) yields INT16_MIN and
the −π/2 input (−16384) yields INT16_MAX, both with the DOM indicator. -/
theorem fxp16_tan_sentinel_counterexample :
    fxp16_tan 16384 0 = (INT16_MIN, true) ∧
    fxp16_tan (-16384) 0 = (INT16_MAX, true) ∧
    INT16_MIN ≠ INT16_MAX := by
  refine ⟨by decide, by decide, by decide⟩

/-- C8 (amended): for every requested output fraction count, fxp16_tan at
the π-normalized representation of +π/2 sets DOM and returns INT16_MIN,
and at −π/2 sets DOM and returns INT16_MAX. -/
theorem fxp16_tan_sentinels (frac : Nat) :
    fxp16_tan 16384 frac = (INT16_MIN, true) ∧
    fxp16_tan (-16384) frac = (INT16_MAX, true) := by
  constructor <;> norm_num [fxp16_tan]

/-- Nat.sqrt is the unique p with `p² ≤ a < (p+1)²`. -/
theorem sqrt_unique {a p : Nat} (h1 : p * p ≤ a) (h2 : a < (p + 1) * (p + 1)) :
    Nat.sqrt a = p := by
  have hl : p ≤ Nat.sqrt a := Nat.le_sqrt.mpr h1
  have hu : Nat.sqrt a < p + 1 := Nat.sqrt_lt.mpr h2
  omega

/-- The restoring loop with a vanished bit returns the accumulated root. -/
theorem isqrtLoop_zero (a r : Nat) : isqrtLoop a r 0 = r := by
  rw [isqrtLoop]
  simp

/-- Main invariant of the restoring square-root loop: entering an
iteration with `bit = 4^k`, residue `a - p²` and partial root `r = 2p·2^k`,
under `p² ≤ a < (p + 2^(k+1))²`, the loop returns `Nat.sqrt a`. -/
theorem isqrtLoop_go :
    ∀ (k p a : Nat), p * p ≤ a → a < (p + 2 * 2 ^ k) * (p + 2 * 2 ^ k) →
    isqrtLoop (a - p * p) (2 * p * 2 ^ k) (2 ^ k * 2 ^ k) = Nat.sqrt a := by
  intro k
  induction k with
  | zero =>
    intro p a hle hlt
    simp only [pow_zero, mul_one] at *
    rw [isqrtLoop]
    simp only [Nat.one_ne_zero, if_false]
    have hdiv : 2 * p / 2 = p := Nat.mul_div_cancel_left p (by norm_num)
    by_cases hc : 2 * p + 1 ≤ a - p * p
    · rw [if_pos hc]
      have h4 : (1 : Nat) / 4 = 0 := by norm_num
      rw [h4, hdiv, isqrtLoop_zero]
      exact (sqrt_unique (by nlinarith [Nat.sub_add_cancel hle, hle, hc]) (by nlinarith [hlt])).symm
    · rw [if_neg hc]
      have h4 : (1 : Nat) / 4 = 0 := by norm_num
      rw [h4, hdiv, isqrtLoop_zero]
      refine (sqrt_unique hle ?_).symm
      have : a - p * p ≤ 2 * p := by omega
      have h2 : a ≤ p * p + 2 * p := by omega
      nlinarith [h2]
  | succ k ih =>
    intro p a hle hlt
    rw [isqrtLoop]
    have hbne : ¬ (2 ^ (k + 1) * 2 ^ (k + 1) = 0) := by positivity
    rw [if_neg hbne]
    have hb4 : 2 ^ (k + 1) * 2 ^ (k + 1) / 4 = 2 ^ k * 2 ^ k := by
      have : 2 ^ (k + 1) * 2 ^ (k + 1) = 4 * (2 ^ k * 2 ^ k) := by ring
      rw [this, Nat.mul_div_cancel_left _ (by norm_num)]
    have hrdiv : 2 * p * 2 ^ (k + 1) / 2 = p * 2 ^ (k + 1) := by
      have : 2 * p * 2 ^ (k + 1) = 2 * (p * 2 ^ (k + 1)) := by ring
      rw [this, Nat.mul_div_cancel_left _ (by norm_num)]
    by_cases hc : 2 * p * 2 ^ (k + 1) + 2 ^ (k + 1) * 2 ^ (k + 1) ≤ a - p * p
    · rw [if_pos hc]
      have hc' : (p + 2 ^ (k + 1)) * (p + 2 ^ (k + 1)) ≤ a := by
        have hx := Nat.sub_add_cancel hle
        nlinarith [hc, hle]
      have harg1 : a - p * p - (2 * p * 2 ^ (k + 1) + 2 ^ (k + 1) * 2 ^ (k + 1)) =
          a - (p + 2 ^ (k + 1)) * (p + 2 ^ (k + 1)) := by
        have hx : (p + 2 ^ (k + 1)) * (p + 2 ^ (k + 1)) =
            p * p + (2 * p * 2 ^ (k + 1) + 2 ^ (k + 1) * 2 ^ (k + 1)) := by ring
        omega
      have harg2 : 2 * p * 2 ^ (k + 1) / 2 + 2 ^ (k + 1) * 2 ^ (k + 1) =
          2 * (p + 2 ^ (k + 1)) * 2 ^ k := by
        rw [hrdiv]; ring
      rw [harg1, harg2, hb4]
      refine ih (p + 2 ^ (k + 1)) a hc' ?_
      have : p + 2 ^ (k + 1) + 2 * 2 ^ k = p + 2 * 2 ^ (k + 1) := by ring
      rw [this]
      exact hlt
    · rw [if_neg hc]
      have harg2 : 2 * p * 2 ^ (k + 1) / 2 = 2 * p * 2 ^ k := by
        rw [hrdiv]; ring
      rw [harg2, hb4]
      refine ih p a hle ?_
      have hup : a < (p + 2 ^ (k + 1)) * (p + 2 ^ (k + 1)) := by
        have h2 : a - p * p < 2 * p * 2 ^ (k + 1) + 2 ^ (k + 1) * 2 ^ (k + 1) := by omega
        have h3 : a < p * p + (2 * p * 2 ^ (k + 1) + 2 ^ (k + 1) * 2 ^ (k + 1)) := by omega
        nlinarith [h3]
      have : p + 2 * 2 ^ k = p + 2 ^ (k + 1) := by ring
      rw [this]
      exact hup

/-- Correctness through the bit-shrinking phase: from `bit = 4^k` with
`a < 4^(k+1)`, the shrink loop followed by the restoring loop computes
`Nat.sqrt a`. -/
theorem shrink_go :
    ∀ (k a : Nat), a < 2 ^ k * 2 ^ k * 4 →
    isqrtLoop a 0 (shrinkBit a (2 ^ k * 2 ^ k)) = Nat.sqrt a := by
  intro k
  induction k with
  | zero =>
    intro a ha
    simp only [pow_zero, mul_one] at *
    by_cases h : a < 1
    · have ha0 : a = 0 := by omega
      subst ha0
      rw [shrinkBit]
      simp only [Nat.lt_irrefl, if_pos (by norm_num : (0:Nat) < 1)]
      rw [show (1 : Nat) / 4 = 0 from by norm_num]
      rw [shrinkBit]
      simp [isqrtLoop_zero]
    · rw [shrinkBit, if_neg h]
      have := isqrtLoop_go 0 0 a (by omega) (by simpa using ha)
      simpa using this
  | succ k ih =>
    intro a ha
    by_cases h : a < 2 ^ (k + 1) * 2 ^ (k + 1)
    · rw [shrinkBit, if_pos h]
      have hb4 : 2 ^ (k + 1) * 2 ^ (k + 1) / 4 = 2 ^ k * 2 ^ k := by
        have : 2 ^ (k + 1) * 2 ^ (k + 1) = 4 * (2 ^ k * 2 ^ k) := by ring
        rw [this, Nat.mul_div_cancel_left _ (by norm_num)]
      rw [hb4]
      refine ih a ?_
      have : 2 ^ k * 2 ^ k * 4 = 2 ^ (k + 1) * 2 ^ (k + 1) := by ring
      omega
    · rw [shrinkBit, if_neg h]
      have h0 := isqrtLoop_go (k + 1) 0 a (by omega) (by nlinarith [ha])
      simpa using h0

/-- The full integer square root of fxp16_sqrt is exact below `2^32`. -/
theorem isqrt_correct (a : Nat) (ha : a < 2 ^ 32) :
    isqrtLoop a 0 (shrinkBit a (2 ^ 30)) = Nat.sqrt a := by
  have h := shrink_go 15 a (by norm_num at ha ⊢; omega)
  have e : (2 : Nat) ^ 15 * 2 ^ 15 = 2 ^ 30 := by norm_num
  rw [e] at h
  exact h

/-- Closed form of fxp16_sqrt: the integer square root of
`(uint32_t)x << min(frac,15)`, clamped to `0xFFFF`, reinterpreted as the
signed return type. -/
theorem fxp16_sqrt_formula (x : Int) (frac_bits : Nat) :
    fxp16_sqrt x frac_bits =
      int16_ofUInt16 (min (Nat.sqrt
        ((uint32_ofInt x * 2 ^ (if frac_bits > 15 then 15 else frac_bits)) % 2 ^ 32))
        0xFFFF) := by
  simp only [fxp16_sqrt]
  rw [isqrt_correct _ (Nat.mod_lt _ (by norm_num))]
  congr 1
  rw [Nat.min_def]
  split_ifs <;> omega

/-- C9: the fixed-point square root is exact on exact squares at Q1.15 —
`sqrt(flt2fp(0.25,15),15) = flt2fp(0.5,15)` — and in general the restoring
loop computes the integer square root of `(uint32_t)x << n` (the fraction
count clamped to 15, the shift taken in 32-bit arithmetic) clamped to
`0xFFFF`. -/
theorem fxp16_sqrt_spec :
    fxp16_sqrt (fxp16_flt2fp (1 / 4 : ℚ) 15) 15 = fxp16_flt2fp (1 / 2 : ℚ) 15 ∧
    (∀ (x : Int) (frac_bits : Nat),
      fxp16_sqrt x frac_bits =
        int16_ofUInt16 (min (Nat.sqrt
          ((uint32_ofInt x * 2 ^ (if frac_bits > 15 then 15 else frac_bits)) % 2 ^ 32))
          0xFFFF)) := by
  constructor
  · have h1 : fxp16_flt2fp (1 / 4 : ℚ) 15 = (8192 : Int) := by
      norm_num [fxp16_flt2fp, c_round, fxp16_sat, fpxx_sat, INT16_MIN, INT16_MAX]
    have h2 : fxp16_flt2fp (1 / 2 : ℚ) 15 = (16384 : Int) := by
      norm_num [fxp16_flt2fp, c_round, fxp16_sat, fpxx_sat, INT16_MIN, INT16_MAX]
    rw [h1, h2, fxp16_sqrt_formula]
    have hs : Nat.sqrt ((uint32_ofInt 8192 * 2 ^ (if (15:Nat) > 15 then 15 else 15)) % 2 ^ 32)
        = 16384 := by
      have : (uint32_ofInt 8192 * 2 ^ (if (15:Nat) > 15 then 15 else 15)) % 2 ^ 32
          = 268435456 := by decide
      rw [this]
      exact sqrt_unique (by norm_num) (by norm_num)
    rw [hs]
    decide
  · exact fxp16_sqrt_formula

/-- The trace of one delivery: the event itself when the destination
accepts it, nothing otherwise. -/
theorem deliver_trace {N : Nat} (s : SchedState N) (evt : Event) :
    (process_deliver_event s evt).2.2 =
      if (PROCESS_IS_RUNNING s evt.eto || decide (evt.id = PROCESS_EVENT_START)) = true
      then [evt] else [] := by
  unfold process_deliver_event
  split_ifs <;> simp_all

/-- Trace of one poll-drain pass over a duplicate-free task sequence: one
POLL event, sourced at the current process, to each flagged task that is
running, in sequence order. -/
theorem pollForeach_trace {N : Nat} :
    ∀ (l : List Nat) (s : SchedState N), l.Nodup →
    (pollForeach l s).2 =
      ((l.filter (fun p => (s.procs p).pollreq)).filter
        (fun p => PROCESS_IS_RUNNING s p)).map
        (fun p => { id := PROCESS_EVENT_POLL, data := 0, efrom := s.current, eto := p }) := by
  intro l
  induction l with
  | nil => intro s _; simp [pollForeach]
  | cons p rest ih =>
    intro s hnd
    have hnd' : rest.Nodup := hnd.of_cons
    have hp_notin : p ∉ rest := (List.nodup_cons.mp hnd).1
    by_cases hp : (s.procs p).pollreq = true
    · have hs1run : PROCESS_IS_RUNNING
          (setProc s p (fun pr => { pr with pollreq := false })) p =
          PROCESS_IS_RUNNING s p := by
        simp [PROCESS_IS_RUNNING, setProc]
      have hr_trace : (process_post_sync
          (setProc s p (fun pr => { pr with pollreq := false })) p PROCESS_EVENT_POLL 0).2.2 =
          (if PROCESS_IS_RUNNING s p = true then
            [{ id := PROCESS_EVENT_POLL, data := 0, efrom := s.current, eto := p }]
          else []) := by
        rw [process_post_sync, deliver_trace]
        simp [hs1run, PROCESS_EVENT_POLL, PROCESS_EVENT_START]
        simp [setProc]
      have hprocs : ∀ q ∈ rest,
          ((process_post_sync (setProc s p (fun pr => { pr with pollreq := false }))
            p PROCESS_EVENT_POLL 0).2.1).procs q = s.procs q := by
        intro q hq
        have hqp : q ≠ p := fun h => hp_notin (h ▸ hq)
        rw [process_post_sync]
        rw [(deliver_procs (setProc s p (fun pr => { pr with pollreq := false })) _).1 q hqp]
        simp [setProc, Function.update_noteq hqp]
      have hcur2 : ((process_post_sync (setProc s p (fun pr => { pr with pollreq := false }))
          p PROCESS_EVENT_POLL 0).2.1).current = s.current := by
        rw [process_post_sync]
        rw [(deliver_frame (setProc s p (fun pr => { pr with pollreq := false })) _).2.2.1]
        rfl
      have hih := ih ((process_post_sync (setProc s p (fun pr => { pr with pollreq := false }))
          p PROCESS_EVENT_POLL 0).2.1) hnd'
      have hf1 : rest.filter (fun q =>
            (((process_post_sync (setProc s p (fun pr => { pr with pollreq := false }))
              p PROCESS_EVENT_POLL 0).2.1).procs q).pollreq) =
          rest.filter (fun q => (s.procs q).pollreq) :=
        List.filter_congr (fun x hx => by rw [hprocs x hx])
      have hf2 : (rest.filter (fun q => (s.procs q).pollreq)).filter
            (fun q => PROCESS_IS_RUNNING
              ((process_post_sync (setProc s p (fun pr => { pr with pollreq := false }))
                p PROCESS_EVENT_POLL 0).2.1) q) =
          (rest.filter (fun q => (s.procs q).pollreq)).filter
            (fun q => PROCESS_IS_RUNNING s q) :=
        List.filter_congr (fun x hx => by
          have hxr : x ∈ rest := List.mem_of_mem_filter hx
          show PT_IS_RUNNING _ = PT_IS_RUNNING _
          rw [hprocs x hxr])
      simp only [pollForeach, hp, if_true]
      rw [hr_trace, hih, hcur2, hf1, hf2]
      rw [List.filter_cons, if_pos hp, List.filter_cons]
      cases hrun : PROCESS_IS_RUNNING s p with
      | false => simp [hrun]
      | true => simp [hrun]
    · have hpf : (s.procs p).pollreq = false := by
        revert hp; cases (s.procs p).pollreq <;> simp
      simp only [pollForeach, hpf, Bool.false_eq_true, if_false]
      rw [ih s hnd']
      rw [List.filter_cons, if_neg (by simp [hpf])]

/-- With fuel 2 the embedded poll loop equals the C `while` loop in this
model: one pass when the global flag is set (the pass leaves the flag
clear, so the loop exits at its second test), nothing otherwise. -/
theorem pollLoop_two {N : Nat} (s : SchedState N) :
    pollLoop 2 s =
      if s.global_pollreq then
        pollForeach ({ s with global_pollreq := false } : SchedState N).running_list
          { s with global_pollreq := false }
      else (s, []) := by
  have e1 : pollLoop 2 s =
      if s.global_pollreq = true then
        (let s0 : SchedState N := { s with global_pollreq := false };
         let r1 := pollForeach s0.running_list s0;
         let r2 := pollLoop 1 r1.1;
         (r2.1, r1.2 ++ r2.2))
      else (s, []) := rfl
  by_cases hg : s.global_pollreq
  · rw [if_pos hg, e1, if_pos hg]
    have hf := (pollForeach_frame (N := N)
      ({ s with global_pollreq := false } : SchedState N).running_list
      { s with global_pollreq := false }).2.2.1
    have e2 : pollLoop 1 (pollForeach
        ({ s with global_pollreq := false } : SchedState N).running_list
        { s with global_pollreq := false }).1 =
        ((pollForeach ({ s with global_pollreq := false } : SchedState N).running_list
          { s with global_pollreq := false }).1, []) := by
      have hfalse : (pollForeach
          ({ s with global_pollreq := false } : SchedState N).running_list
          { s with global_pollreq := false }).1.global_pollreq = false := hf
      show (if (pollForeach ({ s with global_pollreq := false } : SchedState N).running_list
          { s with global_pollreq := false }).1.global_pollreq = true then _ else _) = _
      rw [hfalse]
      simp
    show ((pollLoop 1 (pollForeach
        ({ s with global_pollreq := false } : SchedState N).running_list
        { s with global_pollreq := false }).1).1,
      (pollForeach ({ s with global_pollreq := false } : SchedState N).running_list
        { s with global_pollreq := false }).2 ++
      (pollLoop 1 (pollForeach
        ({ s with global_pollreq := false } : SchedState N).running_list
        { s with global_pollreq := false }).1).2) = _
    rw [e2]
    simp
  · rw [if_neg hg, e1, if_neg hg]

/-- The ptimer service trace is empty or the single ptimer POLL event. -/
theorem ptimer_processing_trace {N : Nat} (s : SchedState N) :
    (ptimer_processing s).2 = [] ∨
      (ptimer_processing s).2 = [ptimer_poll_evt s.ptimer_pid] := by
  unfold ptimer_processing
  split_ifs with h
  · rw [deliver_trace]
    split_ifs with h2
    · right; rfl
    · left; rfl
  · left; rfl

/-- C1: one call of process_run first synchronously delivers a POLL event
to each running-list task whose poll flag is set (when the global poll
flag is set; the drain loop repeats while the flag is set, and in this
model one pass clears it), then runs the ptimer service routine (at most
one POLL delivery to the ptimer task), then pops and delivers at most one
event from the event queue — the head event, and none when the queue is
empty — and returns the number of events remaining in the queue plus the
global poll flag.  No poll delivery follows the queued-event delivery
within the call. -/
theorem process_run_spec {N : Nat} (s : SchedState N)
    (hnd : s.running_list.Nodup) :
    ∃ tpoll tpt tevt : List Event,
      (process_run s).2.2 = tpoll ++ tpt ++ tevt ∧
      tpoll = (if s.global_pollreq then
          ((s.running_list.filter (fun p => (s.procs p).pollreq)).filter
            (fun p => PROCESS_IS_RUNNING s p)).map
            (fun p => { id := PROCESS_EVENT_POLL, data := 0, efrom := s.current, eto := p })
        else []) ∧
      tpt.length ≤ 1 ∧
      (∀ e ∈ tpt, e = ptimer_poll_evt s.ptimer_pid) ∧
      tevt.length ≤ 1 ∧
      (s.queue.count = 0 → tevt = []) ∧
      (∀ e ∈ tevt, e = s.queue.items s.queue.head) ∧
      (process_run s).1 =
        (process_run s).2.1.queue.count +
          (if (process_run s).2.1.global_pollreq then 1 else 0) := by
  have hq2 : (ptimer_processing (pollLoop 2 s).1).1.queue = s.queue := by
    rw [ptimer_processing_queue, (pollLoop_frame 2 s).1]
  refine ⟨(pollLoop 2 s).2, (ptimer_processing (pollLoop 2 s).1).2,
    (if (ptimer_processing (pollLoop 2 s).1).1.queue.count ≠ 0 then
      (process_deliver_event (ptimer_processing (pollLoop 2 s).1).1
        ((ptimer_processing (pollLoop 2 s).1).1.queue.items
          (ptimer_processing (pollLoop 2 s).1).1.queue.head)).2.2
    else []), ?_, ?_, ?_, ?_, ?_, ?_, ?_, ?_⟩
  · simp only [process_run]
    split_ifs <;> rfl
  · rw [pollLoop_two]
    by_cases hg : s.global_pollreq
    · rw [if_pos hg, if_pos hg]
      rw [pollForeach_trace _ _ hnd]
      rfl
    · rw [if_neg hg, if_neg hg]
  · rcases ptimer_processing_trace (pollLoop 2 s).1 with h | h <;> simp [h]
  · have hpid : (pollLoop 2 s).1.ptimer_pid = s.ptimer_pid :=
      (pollLoop_frame 2 s).2.2.2.2.2
    rcases ptimer_processing_trace (pollLoop 2 s).1 with h | h <;>
      simp [h, hpid]
  · split_ifs with hc
    · rw [deliver_trace]
      split_ifs <;> simp
    · simp
  · intro h0
    rw [if_neg]
    rw [hq2]
    simpa using h0
  · intro e he
    rcases Classical.em ((ptimer_processing (pollLoop 2 s).1).1.queue.count ≠ 0) with hc | hc
    · rw [if_pos hc, deliver_trace] at he
      rw [hq2] at he
      rcases Classical.em ((PROCESS_IS_RUNNING (ptimer_processing (pollLoop 2 s).1).1
          (s.queue.items s.queue.head).eto ||
        decide ((s.queue.items s.queue.head).id = PROCESS_EVENT_START)) = true) with hd | hd
      · rw [if_pos hd] at he
        simpa using he
      · rw [if_neg hd] at he
        simp at he
    · rw [if_neg hc] at he
      simp at he
  · rfl

/-- Witness for C1 at the concrete base state. -/
theorem process_run_spec_witness :
    (baseState 1).running_list.Nodup ∧
    (∃ tpoll tpt tevt : List Event,
      (process_run (baseState 1)).2.2 = tpoll ++ tpt ++ tevt ∧
      tpoll = (if (baseState 1).global_pollreq then
          (((baseState 1).running_list.filter
              (fun p => ((baseState 1).procs p).pollreq)).filter
            (fun p => PROCESS_IS_RUNNING (baseState 1) p)).map
            (fun p => { id := PROCESS_EVENT_POLL, data := 0,
                        efrom := (baseState 1).current, eto := p })
        else []) ∧
      tpt.length ≤ 1 ∧
      (∀ e ∈ tpt, e = ptimer_poll_evt (baseState 1).ptimer_pid) ∧
      tevt.length ≤ 1 ∧
      ((baseState 1).queue.count = 0 → tevt = []) ∧
      (∀ e ∈ tevt, e = (baseState 1).queue.items (baseState 1).queue.head) ∧
      (process_run (baseState 1)).1 =
        (process_run (baseState 1)).2.1.queue.count +
          (if (process_run (baseState 1)).2.1.global_pollreq then 1 else 0)) :=
  ⟨by simp [baseState], process_run_spec (baseState 1) (by simp [baseState])⟩
